import Mathlib

/-!
Verification development for the per-page extraction-and-continuation
pipeline of a web-crawler repository (`utils/scraper_utils.py`,
`models/venue.py`).

The development shallowly embeds:
  * the URL-joining machinery of CPython's `urllib.parse`
    (`urlsplit`, `urlparse`, `urlunsplit`, `urlunparse`, `urljoin`),
    which `fetch_and_process_page` calls for base-URL fallback
    construction and document-URL normalization;
  * `check_no_results` and `fetch_and_process_page` from
    `utils/scraper_utils.py`, with the external collaborators (the page
    fetcher, the HTML `<base>`-tag lookup, and the LLM extraction call)
    modelled as explicit inputs carrying exactly the fields the code
    inspects;
  * `get_llm_strategy` from `utils/scraper_utils.py`, with the process
    environment modelled as a partial map;
  * the validation helpers `is_complete_venue` / `is_duplicate_venue`
    (their module `utils/data_utils.py` is not part of the sources;
    they are modelled from the specification, as marked below).
-/

namespace Crawler

/-! ### Character-level helpers mirroring the Python string operations -/

/-- The characters admissible in a URL scheme
(`urllib.parse.scheme_chars`). -/
def schemeChars : List Char :=
  "abcdefghijklmnopqrstuvwxyzABCDEFGHIJKLMNOPQRSTUVWXYZ0123456789+-.".toList

/-- Membership in `_WHATWG_C0_CONTROL_OR_SPACE`: the C0 control
characters together with the space character. -/
def isC0OrSpace (c : Char) : Bool := c.toNat ≤ 0x20

/-- `str.lstrip(_WHATWG_C0_CONTROL_OR_SPACE)`. -/
def lstripC0 (l : List Char) : List Char := l.dropWhile isC0OrSpace

/-- `str.strip(_WHATWG_C0_CONTROL_OR_SPACE)` (both ends). -/
def stripC0 (l : List Char) : List Char :=
  ((l.dropWhile isC0OrSpace).reverse.dropWhile isC0OrSpace).reverse

/-- Removal of `_UNSAFE_URL_BYTES_TO_REMOVE` (`"\t"`, `"\r"`, `"\n"`):
`url.replace(b, "")` for each of the three bytes. -/
def removeUnsafe (l : List Char) : List Char :=
  l.filter (fun c => !(c == '\t' || c == '\r' || c == '\n'))

/-- Split a list at the first occurrence of `c` (the occurrence itself is
dropped); `none` when `c` does not occur.  Mirrors
`url.split(sep, 1)` / `url.find(sep)` patterns. -/
def splitAtChar (c : Char) : List Char → Option (List Char × List Char)
  | [] => none
  | a :: as =>
    if a == c then some ([], as)
    else
      match splitAtChar c as with
      | none => none
      | some (l, r) => some (a :: l, r)

/-- Split a list at the last occurrence of `c` (dropped); `none` when `c`
does not occur.  Mirrors `url.rfind(sep)` patterns. -/
def splitAtLastChar (c : Char) : List Char → Option (List Char × List Char)
  | [] => none
  | a :: as =>
    match splitAtLastChar c as with
    | some (l, r) => some (a :: l, r)
    | none => if a == c then some ([], as) else none

/-- Python `sep in s` membership of a single character. -/
def hasChar (c : Char) (l : List Char) : Bool := l.contains c

/-- `str.split('/')`: always returns a non-empty list of segments. -/
def splitOnChar (c : Char) : List Char → List (List Char)
  | [] => [[]]
  | a :: as =>
    let r := splitOnChar c as
    if a == c then [] :: r
    else
      match r with
      | [] => [[a]]
      | s :: rest => (a :: s) :: rest

/-! ### `urllib.parse` scheme lists -/

/-- `urllib.parse.uses_relative`. -/
def usesRelative : List String :=
  ["", "ftp", "http", "gopher", "nntp", "imap", "wais", "file", "https",
   "shttp", "mms", "prospero", "rtsp", "rtsps", "rtspu", "sftp", "svn",
   "svn+ssh", "ws", "wss"]

/-- `urllib.parse.uses_netloc`. -/
def usesNetloc : List String :=
  ["", "ftp", "http", "gopher", "nntp", "telnet", "imap", "wais", "file",
   "mms", "https", "shttp", "snews", "prospero", "rtsp", "rtsps", "rtspu",
   "rsync", "svn", "svn+ssh", "sftp", "nfs", "git", "git+ssh", "ws", "wss"]

/-- `urllib.parse.uses_params`. -/
def usesParams : List String :=
  ["", "ftp", "hdl", "prospero", "http", "imap", "https", "shttp", "rtsp",
   "rtsps", "rtspu", "sip", "sips", "mms", "sftp", "tel"]

/-! ### `urlsplit` / `urlparse` -/

/-- Result of `urlsplit`: `<scheme>://<netloc>/<path>?<query>#<fragment>`. -/
structure SplitResult where
  scheme : String
  netloc : String
  path : String
  query : String
  fragment : String
deriving DecidableEq, Repr

/-- Result of `urlparse`: `urlsplit` with `;params` separated off the
path. -/
structure ParseResult where
  scheme : String
  netloc : String
  path : String
  params : String
  query : String
  fragment : String
deriving DecidableEq, Repr

/-- `_splitnetloc(url, 2)` applied to the part after the leading `//`:
the netloc runs until the first of `/`, `?`, `#`. -/
def splitnetloc : List Char → (List Char × List Char)
  | [] => ([], [])
  | c :: cs =>
    if c == '/' || c == '?' || c == '#' then ([], c :: cs)
    else
      let (a, b) := splitnetloc cs
      (c :: a, b)

/-- The scheme-detection step of `urlsplit`:
`i = url.find(':')`; when `i > 0`, the first character is an ASCII
letter, and every character before the colon is a scheme character, the
scheme is the lowercased part before the colon and the rest follows it.
Otherwise the url is unchanged and there is no explicit scheme. -/
def splitScheme (u : List Char) : Option (List Char) × List Char :=
  match splitAtChar ':' u with
  | some (pre, post) =>
    if pre ≠ [] ∧ (match pre with
        | c :: _ => c.isAlpha
        | [] => false) = true
        ∧ pre.all (fun c => schemeChars.contains c) then
      (some (pre.map Char.toLower), post)
    else (none, u)
  | none => (none, u)

/-- Embedding of `urllib.parse.urlsplit(url, scheme)` (with
`allow_fragments=True`, the only mode the crawler uses).

The `ValueError` paths for bracketed (IPv6) netlocs and the
`_checknetloc` rejection of non-ASCII netlocs with decomposed
characters are not modelled; the theorem below that quantifies over
URLs (the amended C5) carries explicit `parseSafe` hypotheses — netloc
free of square brackets and ASCII-only — under which CPython takes
none of those raise paths, so that the theorem holds of the original
as well. -/
def urlsplit (url scheme : String) : SplitResult :=
  let u := removeUnsafe (lstripC0 url.toList)
  let sch := removeUnsafe (stripC0 scheme.toList)
  let (found, u) := splitScheme u
  let sch := match found with
    | some s => s
    | none => sch
  let (netloc, u) :=
    if u.take 2 = ['/', '/'] then splitnetloc (u.drop 2) else ([], u)
  let (u, fragment) :=
    if hasChar '#' u then
      match splitAtChar '#' u with
      | some (a, b) => (a, b)
      | none => (u, [])
    else (u, [])
  let (u, query) :=
    if hasChar '?' u then
      match splitAtChar '?' u with
      | some (a, b) => (a, b)
      | none => (u, [])
    else (u, [])
  ⟨String.mk sch, String.mk netloc, String.mk u, String.mk query,
   String.mk fragment⟩

/-- `_splitparams(url)`: split `;params` off a path.  When the path has a
`/`, only a `;` at or after the last `/` separates params.  (The
`find = -1` slicing of the slash-free branch is kept as in the source;
`urlparse` only calls this when a `;` is present.) -/
def splitparams (url : List Char) : List Char × List Char :=
  match splitAtLastChar '/' url with
  | some (pre, post) =>
    (match splitAtChar ';' post with
     | none => (url, [])
     | some (p1, p2) => (pre ++ '/' :: p1, p2))
  | none =>
    (match splitAtChar ';' url with
     | none => (url.dropLast, url)
     | some (p1, p2) => (p1, p2))

/-- Embedding of `urllib.parse.urlparse(url, scheme)`. -/
def urlparse (url scheme : String) : ParseResult :=
  let s := urlsplit url scheme
  let (path, params) :=
    if s.scheme ∈ usesParams ∧ hasChar ';' s.path.toList then
      splitparams s.path.toList
    else (s.path.toList, [])
  ⟨s.scheme, s.netloc, String.mk path, String.mk params, s.query,
   s.fragment⟩

/-! ### `urlunsplit` / `urlunparse` -/

/-- Embedding of `urllib.parse.urlunsplit`. -/
def urlunsplit (r : SplitResult) : String :=
  let url := r.path.toList
  let url :=
    if r.netloc ≠ "" ∨ (r.scheme ≠ "" ∧ r.scheme ∈ usesNetloc ∧
        url.take 2 ≠ ['/', '/']) then
      let url := if url ≠ [] ∧ url.take 1 ≠ ['/'] then '/' :: url else url
      '/' :: '/' :: r.netloc.toList ++ url
    else url
  let url := if r.scheme ≠ "" then r.scheme.toList ++ ':' :: url else url
  let url := if r.query ≠ "" then url ++ '?' :: r.query.toList else url
  let url := if r.fragment ≠ "" then url ++ '#' :: r.fragment.toList else url
  String.mk url

/-- Embedding of `urllib.parse.urlunparse`. -/
def urlunparse (r : ParseResult) : String :=
  let path :=
    if r.params ≠ "" then r.path ++ ";" ++ r.params else r.path
  urlunsplit ⟨r.scheme, r.netloc, path, r.query, r.fragment⟩

/-! ### `urljoin` -/

/-- `segments[1:-1] = filter(None, segments[1:-1])`: drop empty segments
strictly between the first and the last. -/
def filterMidAux : List (List Char) → List (List Char)
  | [] => []
  | [a] => [a]
  | a :: rest =>
    if a = [] then filterMidAux rest else a :: filterMidAux rest

/-- Keep the first segment, filter empties from the middle, keep the
last. -/
def filterMid : List (List Char) → List (List Char)
  | [] => []
  | [a] => [a]
  | a :: rest => a :: filterMidAux rest

/-- The `..`/`.` resolution loop of `urljoin` (`resolved_path`); a `..`
on an empty stack is ignored. -/
def resolveSegs : List (List Char) → List (List Char) → List (List Char)
  | [], acc => acc
  | s :: rest, acc =>
    if s = ['.', '.'] then resolveSegs rest acc.dropLast
    else if s = ['.'] then resolveSegs rest acc
    else resolveSegs rest (acc ++ [s])

/-- `'/'.join(resolved_path)`. -/
def joinSegs : List (List Char) → List Char
  | [] => []
  | [a] => a
  | a :: rest => a ++ '/' :: joinSegs rest

/-- Embedding of `urllib.parse.urljoin(base, url)` (CPython 3.11,
`allow_fragments=True`). -/
def urljoin (base url : String) : String :=
  if base = "" then url
  else if url = "" then base
  else
    let b := urlparse base ""
    let u := urlparse url b.scheme
    if u.scheme ≠ b.scheme ∨ u.scheme ∉ usesRelative then url
    else if u.scheme ∈ usesNetloc ∧ u.netloc ≠ "" then
      urlunparse ⟨u.scheme, u.netloc, u.path, u.params, u.query, u.fragment⟩
    else
      let netloc := if u.scheme ∈ usesNetloc then b.netloc else u.netloc
      if u.path = "" ∧ u.params = "" then
        let query := if u.query = "" then b.query else u.query
        urlunparse ⟨u.scheme, netloc, b.path, b.params, query, u.fragment⟩
      else
        let baseParts := splitOnChar '/' b.path.toList
        let baseParts :=
          if baseParts.getLast? ≠ some [] then baseParts.dropLast
          else baseParts
        let pathSegs := splitOnChar '/' u.path.toList
        let segments :=
          if u.path.toList.take 1 = ['/'] then pathSegs
          else filterMid (baseParts ++ pathSegs)
        let resolved := resolveSegs segments []
        let resolved :=
          if segments.getLast? = some ['.'] ∨
             segments.getLast? = some ['.', '.'] then resolved ++ [[]]
          else resolved
        let p := joinSegs resolved
        let p := if p = [] then ['/'] else p
        urlunparse ⟨u.scheme, netloc, String.mk p, u.params, u.query,
          u.fragment⟩

/-- The condition on a parse's netloc under which CPython's `urlsplit`
takes none of its `ValueError` paths, so the embedding and CPython
agree on the parse: no square bracket (the unbalanced-bracket and
`_check_bracketed_host` IPv6 checks fire only when `[` or `]` occurs in
the netloc) and ASCII-only (`_checknetloc` returns without raising on
any ASCII netloc). -/
def parseSafe (r : ParseResult) : Bool :=
  r.netloc.toList.all fun c => !(c == '[' || c == ']') && decide (c.toNat < 128)

/-! ### Extracted items (the JSON maps produced by the extraction call) -/

/-- A JSON-ish field value as it appears in an extracted item: the schema
fields `document_name` / `document_url` are strings and `error` is a
boolean; `null` covers absent/None values. -/
inductive JVal where
  | str (s : String)
  | bool (b : Bool)
  | null
deriving DecidableEq, Repr

/-- A raw extracted item: a key/value map (Python dict), modelled as an
association list with unique keys in insertion order. -/
def Item := List (String × JVal)
deriving instance DecidableEq, Repr for Item

/-- Python `d.get(k)` / `k in d`: the first binding of `k`. -/
def jlookup (k : String) : Item → Option JVal
  | [] => none
  | (k', v) :: rest => if k' == k then some v else jlookup k rest

/-- Python `d.pop(k)` on a unique-key dict: drop the bindings of `k`. -/
def removeKey (k : String) : Item → Item
  | [] => []
  | (k', v) :: rest =>
    if k' == k then removeKey k rest else (k', v) :: removeKey k rest

/-- Python `d[k] = v`: replace the value in place, append when absent. -/
def jset (k : String) (v : JVal) : Item → Item
  | [] => [(k, v)]
  | (k', v') :: rest =>
    if k' == k then (k', v) :: rest else (k', v') :: jset k v rest

/-! ### Substring containment (Python `needle in haystack`) -/

/-- Whether `pat` is an initial run of the second list. -/
def listStarts : List Char → List Char → Bool
  | [], _ => true
  | _ :: _, [] => false
  | a :: as, b :: bs => a == b && listStarts as bs

/-- Whether `pat` occurs contiguously in the second list. -/
def listHasSub (pat : List Char) : List Char → Bool
  | [] => listStarts pat []
  | s :: rest => listStarts pat (s :: rest) || listHasSub pat rest

/-- Python substring membership `pat in s`. -/
def strContainsSub (s pat : String) : Bool := listHasSub pat.toList s.toList

/-! ### External collaborators (fields the code actually inspects) -/

/-- The fetch collaborator's result (`crawler.arun` without an extraction
strategy): the code reads `success`, `cleaned_html` and
`error_message`. -/
structure FetchResult where
  success : Bool
  cleaned_html : String
  error_message : String
deriving DecidableEq, Repr

/-- The extraction call's result (`crawler.arun` with the LLM strategy).
`extracted = none` models a falsy `extracted_content` (absent or empty
string); `extracted = some l` models a truthy JSON string that
`json.loads` parses to the list `l` (a malformed JSON string would
raise out of the Python function — no claim exercises that path, and it
is not modelled). -/
structure ExtractionResult where
  success : Bool
  extracted : Option (List Item)
  error_message : String
deriving DecidableEq, Repr

/-! ### `get_llm_strategy` -/

/-- The configuration fields of `LLMExtractionStrategy` that
`get_llm_strategy` sets and that matter to the claims; the schema and
instruction text are opaque to every claim and are omitted. -/
structure LLMStrategy where
  provider : String
  api_token : Option String
  extraction_type : String
  input_format : String
deriving DecidableEq, Repr

/-- Embedding of `get_llm_strategy` (`utils/scraper_utils.py`).  The
process environment is an explicit partial map; `os.getenv` of an
absent variable is `none`.  The function performs no validation of the
token: it always returns a strategy value. -/
def get_llm_strategy (env : String → Option String) : LLMStrategy :=
  { provider := "groq/deepseek-r1-distill-llama-70b",
    api_token := env "GROQ_API_KEY",
    extraction_type := "schema",
    input_format := "markdown" }

/-! ### `check_no_results` -/

/-- The no-results marker the code searches for. -/
def noResultsMarker : String := "No Results Found"

/-- Embedding of `check_no_results` (`utils/scraper_utils.py`): on a
successful fetch, substring-check the cleaned HTML for the marker; on a
failed fetch, log and fall through to `False`. -/
def check_no_results (result : FetchResult) : Bool :=
  if result.success then
    if strContainsSub result.cleaned_html noResultsMarker then true
    else false
  else false

/-! ### Validation helpers (`utils/data_utils.py`, not under the sources) -/

/-- Python `str.strip()` whitespace (the characters stripped by an
argument-free `strip`, ASCII range). -/
def isPyWhitespace (c : Char) : Bool :=
  c == ' ' || c == '\t' || c == '\n' || c == '\r' || c == '\x0b' ||
    c == '\x0c'

/-- Modelled from the spec: whether a field value is "empty or
whitespace-only" (§4.4).  A whitespace-only or empty string is blank,
`null` (an absent value) is blank, a boolean is not. -/
def blankVal : JVal → Bool
  | .str s => s.toList.all isPyWhitespace
  | .bool _ => false
  | .null => true

/-- Modelled from the spec: `utils/data_utils.is_complete_venue`, whose
module is not among the sources (only its import and call sites are).
Per §4.4: an `error` field equal to `false` is informational and is
stripped from the item before the completeness check (any other value
is preserved); a required field counts as present only if it exists
with a value that is not empty/whitespace-only.  Returns the verdict
together with the (possibly stripped) item the caller keeps working
with. -/
def is_complete_venue (venue : Item) (required_keys : List String) :
    Bool × Item :=
  let venue :=
    if jlookup "error" venue = some (JVal.bool false) then
      removeKey "error" venue
    else venue
  (required_keys.all (fun k =>
    match jlookup k venue with
    | some v => !(blankVal v)
    | none => false), venue)

/-- Modelled from the spec: `utils/data_utils.is_duplicate_venue`, whose
module is not among the sources.  Per §4.5: exact-match membership of
the candidate name in the run's seen-name set, with no case or
whitespace folding. -/
def is_duplicate_venue (name : JVal) (seen : List JVal) : Bool :=
  decide (name ∈ seen)

/-! ### `fetch_and_process_page` -/

/-- The page URL's own `scheme://netloc`, the fallback base URL
(`f"{parsed_url.scheme}://{parsed_url.netloc}"`). -/
def fallbackBase (page_url : String) : String :=
  let p := urlparse page_url ""
  p.scheme ++ "://" ++ p.netloc

/-- The base-URL resolution step of `fetch_and_process_page`
(`if base_tag and base_tag.get('href'): base_url = base_tag['href']`).
`baseHref` is the collaborator-supplied `<base>`-tag lookup on the
fetched HTML: `some h` when a base tag exists and carries an `href`
attribute with value `h`, `none` otherwise.  Python truthiness makes an
empty `href` fall through to the fallback. -/
def resolveBaseUrl (baseHref : Option String) (page_url : String) :
    String :=
  match baseHref with
  | some h => if h ≠ "" then h else fallbackBase page_url
  | none => fallbackBase page_url

/-- `venue['document_url'] = urljoin(base_url, venue['document_url'])`,
guarded by `if 'document_url' in venue`.  (A non-string value under
that key would raise `TypeError` in Python; the schema makes the field
a string, and no claim exercises a non-string value, so a non-string
value is left unchanged here.) -/
def normalizeUrlField (base : String) (venue : Item) : Item :=
  match jlookup "document_url" venue with
  | some (JVal.str s) => jset "document_url" (JVal.str (urljoin base s)) venue
  | some _ => venue
  | none => venue

/-- The accepted-venue / seen-name / diagnostic-log state threaded
through the per-item loop of `fetch_and_process_page`. -/
structure PipeState where
  venues : List Item
  seen : List JVal
  log : List String
deriving DecidableEq, Repr

/-- `venue["document_name"]`.  A missing key would raise `KeyError` in
Python; it cannot be missing once the completeness check has passed
with `"document_name"` among the required keys, which is how the run
invokes the pipeline. -/
def nameOf (venue : Item) : JVal :=
  (jlookup "document_name" venue).getD JVal.null

/-- One iteration of the `for venue in extracted_data` loop of
`fetch_and_process_page`: normalize the URL, run the completeness check
(skipping the item on failure), run the duplicate check (skipping and
logging on failure), otherwise register the name and append the
venue. -/
def processVenue (base : String) (required_keys : List String)
    (st : PipeState) (venue : Item) : PipeState :=
  let checked := is_complete_venue (normalizeUrlField base venue) required_keys
  if !checked.1 then st
  else
    let name := nameOf checked.2
    if is_duplicate_venue name st.seen then
      { st with log := st.log ++ ["Duplicate venue found. Skipping."] }
    else
      { venues := st.venues ++ [checked.2],
        seen := st.seen ++ [name],
        log := st.log }

/-- The page outcome: the returned `(complete_venues, bool)` pair,
together with the seen-name set after the call (mutated in place in
Python) and the printed diagnostics. -/
structure PageResult where
  venues : List Item
  more_pages : Bool
  seen : List JVal
  log : List String
deriving DecidableEq, Repr

/-- Embedding of `fetch_and_process_page` (`utils/scraper_utils.py`).

Inputs model the collaborators: `initial` is the first fetch (used for
base-URL discovery), `baseHref` is the `<base>`-tag lookup on its HTML,
`extraction` is the LLM-strategy fetch.  The `css_selector`,
`session_id` and strategy arguments influence only the external calls,
never the logic, and are omitted.  The `more_pages` field is the
literal second component of the returned tuple: the function returns
`False` there on every path and never consults `check_no_results`. -/
def fetch_and_process_page (page_url : String) (initial : FetchResult)
    (baseHref : Option String) (extraction : ExtractionResult)
    (required_keys : List String) (seen_names : List JVal) : PageResult :=
  if !initial.success then
    { venues := [], more_pages := false, seen := seen_names,
      log := ["Error fetching initial page: " ++ initial.error_message] }
  else
    let base_url := resolveBaseUrl baseHref page_url
    match extraction.success, extraction.extracted with
    | true, some extracted_data =>
      if extracted_data = [] then
        { venues := [], more_pages := false, seen := seen_names,
          log := ["No venues found."] }
      else
        let st := extracted_data.foldl (processVenue base_url required_keys)
          { venues := [], seen := seen_names, log := [] }
        { venues := st.venues, more_pages := false, seen := st.seen,
          log := st.log }
    | _, _ =>
      { venues := [], more_pages := false, seen := seen_names,
        log := ["Error fetching URL: " ++ extraction.error_message] }

/-! ### The run driver -/

/-- The collaborator inputs of one page invocation. -/
structure PageInput where
  page_url : String
  initial : FetchResult
  baseHref : Option String
  extraction : ExtractionResult
deriving Repr

/-- Modelled from the spec: the run driver (`main.py`, not among the
sources) calls the pipeline once per page, threading the shared
seen-name set forward and concatenating the page outcomes in page
order (§2, §5).  The driver's stopping rule only shortens the page
sequence, so the dedup invariant is proved over an arbitrary full
sequence of page invocations. -/
def runPages (required_keys : List String) :
    List PageInput → List JVal → List Item × List JVal
  | [], seen => ([], seen)
  | p :: rest, seen =>
    let r := fetch_and_process_page p.page_url p.initial p.baseHref
      p.extraction required_keys seen
    let tail := runPages required_keys rest r.seen
    (r.venues ++ tail.1, tail.2)

/-! ## Theorems -/

/-- C10: the no-results check is conservative on fetch failure — whenever
the probe fetch inside `check_no_results` does not succeed, the check
returns `false` (marker not present), so a failed probe never by itself
reports that pagination should stop. -/
theorem check_no_results_conservative_on_failure (result : FetchResult)
    (h : result.success = false) : check_no_results result = false := by
  simp [check_no_results, h]

/-- Witness for C10 at a concrete failed fetch whose body even contains
the marker text. -/
theorem check_no_results_conservative_on_failure_witness :
    (FetchResult.mk false "No Results Found" "timeout").success = false ∧
    check_no_results ⟨false, "No Results Found", "timeout"⟩ = false :=
  ⟨rfl, check_no_results_conservative_on_failure
    ⟨false, "No Results Found", "timeout"⟩ rfl⟩

/-- C4: when the initial fetch fails, `fetch_and_process_page` returns
exactly zero records and a continuation signal of `false`, leaves the
seen-name set untouched, and emits a diagnostic that preserves the
upstream `error_message` verbatim — returning normally rather than
raising. -/
theorem fetch_failure_outcome (page_url : String) (initial : FetchResult)
    (baseHref : Option String) (extraction : ExtractionResult)
    (required_keys : List String) (seen : List JVal)
    (h : initial.success = false) :
    fetch_and_process_page page_url initial baseHref extraction
        required_keys seen =
      { venues := [], more_pages := false, seen := seen,
        log := ["Error fetching initial page: " ++ initial.error_message] } := by
  simp [fetch_and_process_page, h]

/-- Witness for C4 at a concrete failed fetch. -/
theorem fetch_failure_outcome_witness :
    (FetchResult.mk false "" "net::ERR_FAILED").success = false ∧
    fetch_and_process_page "https://example.com/p1" ⟨false, "", "net::ERR_FAILED"⟩
        none ⟨true, some [], ""⟩ ["document_name", "document_url"] [] =
      { venues := [], more_pages := false, seen := [],
        log := ["Error fetching initial page: net::ERR_FAILED"] } :=
  ⟨rfl, by rw [fetch_failure_outcome _ _ _ _ _ _ rfl]; rfl⟩

/-- C7: `get_llm_strategy` reads the credential with `os.getenv` and
performs no validation — with `GROQ_API_KEY` absent from the
environment it still returns a strategy value (with `api_token = none`)
instead of surfacing a configuration error, so nothing stops the run
before page processing. -/
theorem missing_token_yields_strategy :
    get_llm_strategy (fun _ => none) =
      { provider := "groq/deepseek-r1-distill-llama-70b",
        api_token := none, extraction_type := "schema",
        input_format := "markdown" } := rfl

/-- C6: the three concrete relative-to-absolute resolutions of the spec,
computed by the `urljoin` the pipeline applies to each
`document_url`. -/
theorem relative_resolution_cases :
    urljoin "https://example.com" "/docs/cert.pdf" =
      "https://example.com/docs/cert.pdf" ∧
    urljoin "https://example.com" "docs/cert.pdf" =
      "https://example.com/docs/cert.pdf" ∧
    urljoin "https://example.com" "https://other.com/cert.pdf" =
      "https://other.com/cert.pdf" := by
  refine ⟨?_, ?_, ?_⟩ <;> rfl

/-- C1: the pipeline's continuation signal does not track the no-results
marker.  On the same successful extraction, a page whose content lacks
the marker and a page whose content contains it (as `check_no_results`
itself confirms) both yield `more_pages = false`: the pipeline returns
the constant `False` and never invokes the marker check, where the
claim requires `more_pages = true` on the marker-free page. -/
theorem pipeline_ignores_marker :
    check_no_results ⟨true, "<div>No Results Found</div>", ""⟩ = true ∧
    check_no_results ⟨true, "<div>10 results</div>", ""⟩ = false ∧
    (fetch_and_process_page "https://example.com/p1"
        ⟨true, "<div>10 results</div>", ""⟩ none
        ⟨true, some [[("document_name", JVal.str "Cert A"),
                      ("document_url", JVal.str "/a.pdf")]], ""⟩
        ["document_name", "document_url"] []).more_pages = false ∧
    (fetch_and_process_page "https://example.com/p1"
        ⟨true, "<div>No Results Found</div>", ""⟩ none
        ⟨true, some [[("document_name", JVal.str "Cert A"),
                      ("document_url", JVal.str "/a.pdf")]], ""⟩
        ["document_name", "document_url"] []).more_pages = false := by
  refine ⟨?_, ?_, ?_, ?_⟩ <;> rfl

/-- C3: on a page whose initial fetch succeeded, both an extraction
failure and an extraction returning zero items produce zero records —
but the continuation signal is `false`, the same stop-indicating value
the fetch-failure path returns, not a keep-going signal. -/
theorem extraction_failure_signals_stop :
    (fetch_and_process_page "https://example.com/p1"
        ⟨true, "<html></html>", ""⟩ none ⟨false, none, "LLM backend error"⟩
        ["document_name", "document_url"] []) =
      { venues := [], more_pages := false, seen := [],
        log := ["Error fetching URL: LLM backend error"] } ∧
    (fetch_and_process_page "https://example.com/p1"
        ⟨true, "<html></html>", ""⟩ none ⟨true, some [], ""⟩
        ["document_name", "document_url"] []) =
      { venues := [], more_pages := false, seen := [],
        log := ["No venues found."] } := by
  refine ⟨?_, ?_⟩ <;> rfl

/-! ### Helper lemmas about the per-item loop -/

/-- The per-key presence test of the completeness check, in existential
form. -/
theorem presentKey_iff (venue : Item) (k : String) :
    (match jlookup k venue with
      | some v => !(blankVal v)
      | none => false) = true ↔
    ∃ x, jlookup k venue = some x ∧ blankVal x = false := by
  cases h : jlookup k venue <;> simp [h]

/-- The verdict of `is_complete_venue` is the `all`-test over its own
(possibly stripped) output item. -/
theorem is_complete_fst (venue : Item) (required_keys : List String) :
    (is_complete_venue venue required_keys).1 =
      required_keys.all (fun k =>
        match jlookup k (is_complete_venue venue required_keys).2 with
        | some v => !(blankVal v)
        | none => false) := rfl

/-- The completeness verdict in universal-existential form. -/
theorem complete_iff (venue : Item) (required_keys : List String) :
    (is_complete_venue venue required_keys).1 = true ↔
    ∀ k ∈ required_keys, ∃ x,
      jlookup k (is_complete_venue venue required_keys).2 = some x ∧
      blankVal x = false := by
  rw [is_complete_fst, List.all_eq_true]
  exact forall_congr' fun k => forall_congr' fun _ =>
    presentKey_iff (is_complete_venue venue required_keys).2 k

/-- An item failing the completeness check is skipped: the loop state is
unchanged. -/
theorem processVenue_incomplete {base : String} {required_keys : List String}
    {st : PipeState} {venue : Item}
    (h : (is_complete_venue (normalizeUrlField base venue)
      required_keys).1 = false) :
    processVenue base required_keys st venue = st := by
  simp [processVenue, h]

/-- A complete item whose name is already seen only logs: venues and seen
set are unchanged. -/
theorem processVenue_dup {base : String} {required_keys : List String}
    {st : PipeState} {venue : Item}
    (h : (is_complete_venue (normalizeUrlField base venue)
      required_keys).1 = true)
    (hd : nameOf (is_complete_venue (normalizeUrlField base venue)
      required_keys).2 ∈ st.seen) :
    processVenue base required_keys st venue =
      { st with log := st.log ++ ["Duplicate venue found. Skipping."] } := by
  simp [processVenue, h, is_duplicate_venue, hd]

/-- A complete, unseen item is accepted: appended to the venues, its name
registered. -/
theorem processVenue_accept {base : String} {required_keys : List String}
    {st : PipeState} {venue : Item}
    (h : (is_complete_venue (normalizeUrlField base venue)
      required_keys).1 = true)
    (hd : nameOf (is_complete_venue (normalizeUrlField base venue)
      required_keys).2 ∉ st.seen) :
    processVenue base required_keys st venue =
      { venues := st.venues ++
          [(is_complete_venue (normalizeUrlField base venue) required_keys).2],
        seen := st.seen ++
          [nameOf (is_complete_venue (normalizeUrlField base venue)
            required_keys).2],
        log := st.log } := by
  simp [processVenue, h, is_duplicate_venue, hd]

/-- The per-item fold only appends: it extends the accumulated venues by
a list of newly accepted items, appends exactly their names to the seen
set; the new names are pairwise distinct and absent from the incoming
seen set, and every newly accepted item is complete for the required
keys. -/
theorem foldl_processVenue_spec (base : String) (required_keys : List String)
    (items : List Item) :
    ∀ st : PipeState, ∃ new : List Item,
      (items.foldl (processVenue base required_keys) st).venues =
        st.venues ++ new ∧
      (items.foldl (processVenue base required_keys) st).seen =
        st.seen ++ new.map nameOf ∧
      (new.map nameOf).Nodup ∧
      (∀ n ∈ new.map nameOf, n ∉ st.seen) ∧
      (∀ v ∈ new, ∀ k ∈ required_keys, ∃ x,
        jlookup k v = some x ∧ blankVal x = false) := by
  induction items with
  | nil => exact fun st => ⟨[], by simp, by simp, by simp, by simp, by simp⟩
  | cons venue items ih =>
    intro st
    rw [List.foldl_cons]
    by_cases hc : (is_complete_venue (normalizeUrlField base venue)
        required_keys).1 = true
    · by_cases hd : nameOf (is_complete_venue (normalizeUrlField base venue)
          required_keys).2 ∈ st.seen
      · rw [processVenue_dup hc hd]
        obtain ⟨new, h1, h2, h3, h4, h5⟩ := ih _
        exact ⟨new, h1, h2, h3, h4, h5⟩
      · rw [processVenue_accept hc hd]
        obtain ⟨new, h1, h2, h3, h4, h5⟩ := ih
          { venues := st.venues ++
              [(is_complete_venue (normalizeUrlField base venue)
                required_keys).2],
            seen := st.seen ++
              [nameOf (is_complete_venue (normalizeUrlField base venue)
                required_keys).2],
            log := st.log }
        simp only at h1 h2 h4
        refine ⟨(is_complete_venue (normalizeUrlField base venue)
          required_keys).2 :: new, ?_, ?_, ?_, ?_, ?_⟩
        · simpa [List.append_assoc] using h1
        · simpa [List.append_assoc] using h2
        · refine List.nodup_cons.mpr ⟨fun hmem => ?_, h3⟩
          have hni := h4 _ hmem
          simp at hni
        · intro n hn
          rcases List.mem_cons.mp hn with hn' | hn'
          · exact hn' ▸ hd
          · have hni := h4 _ hn'
            simp only [List.mem_append, not_or] at hni
            exact hni.1
        · intro v hv
          rcases List.mem_cons.mp hv with hv' | hv'
          · exact hv' ▸ (complete_iff _ required_keys).mp hc
          · exact h5 _ hv'
    · rw [processVenue_incomplete (Bool.eq_false_iff.mpr hc)]
      obtain ⟨new, h1, h2, h3, h4, h5⟩ := ih st
      exact ⟨new, h1, h2, h3, h4, h5⟩

/-- The initial-fetch-failure branch of the pipeline, as an equation. -/
theorem fapp_eq_fail {page_url : String} {initial : FetchResult}
    {baseHref : Option String} {extraction : ExtractionResult}
    {required_keys : List String} {seen : List JVal}
    (hs : initial.success = false) :
    fetch_and_process_page page_url initial baseHref extraction
      required_keys seen =
      { venues := [], more_pages := false, seen := seen,
        log := ["Error fetching initial page: " ++ initial.error_message] } := by
  simp [fetch_and_process_page, hs]

/-- The extraction-call-failure branch of the pipeline, as an equation. -/
theorem fapp_eq_noext {page_url : String} {initial : FetchResult}
    {baseHref : Option String} {required_keys : List String}
    {seen : List JVal} (hs : initial.success = true)
    (ee : Option (List Item)) (em : String) :
    fetch_and_process_page page_url initial baseHref ⟨false, ee, em⟩
      required_keys seen =
      { venues := [], more_pages := false, seen := seen,
        log := ["Error fetching URL: " ++ em] } := by
  simp [fetch_and_process_page, hs]

/-- The falsy-extracted-content branch of the pipeline, as an equation. -/
theorem fapp_eq_nocontent {page_url : String} {initial : FetchResult}
    {baseHref : Option String} {required_keys : List String}
    {seen : List JVal} (hs : initial.success = true) (em : String) :
    fetch_and_process_page page_url initial baseHref ⟨true, none, em⟩
      required_keys seen =
      { venues := [], more_pages := false, seen := seen,
        log := ["Error fetching URL: " ++ em] } := by
  simp [fetch_and_process_page, hs]

/-- The empty-extraction branch of the pipeline, as an equation. -/
theorem fapp_eq_empty {page_url : String} {initial : FetchResult}
    {baseHref : Option String} {required_keys : List String}
    {seen : List JVal} (hs : initial.success = true) (em : String) :
    fetch_and_process_page page_url initial baseHref ⟨true, some [], em⟩
      required_keys seen =
      { venues := [], more_pages := false, seen := seen,
        log := ["No venues found."] } := by
  simp [fetch_and_process_page, hs]

/-- The successful-extraction branch of the pipeline: the per-item fold
from the empty-venues state, with the returned flag `false`. -/
theorem fapp_eq_fold {page_url : String} {initial : FetchResult}
    {baseHref : Option String} {required_keys : List String}
    {seen : List JVal} {l : List Item} (hs : initial.success = true)
    (hl : l ≠ []) (em : String) :
    fetch_and_process_page page_url initial baseHref ⟨true, some l, em⟩
      required_keys seen =
      { venues := (l.foldl (processVenue (resolveBaseUrl baseHref page_url)
          required_keys) { venues := [], seen := seen, log := [] }).venues,
        more_pages := false,
        seen := (l.foldl (processVenue (resolveBaseUrl baseHref page_url)
          required_keys) { venues := [], seen := seen, log := [] }).seen,
        log := (l.foldl (processVenue (resolveBaseUrl baseHref page_url)
          required_keys) { venues := [], seen := seen, log := [] }).log } := by
  simp [fetch_and_process_page, hs, hl]

/-- Page-level dedup facts: a page invocation appends exactly the names
of its accepted venues to the seen-name set; those names are pairwise
distinct, were not in the incoming set, and the accepted items are
complete. -/
theorem page_names_spec (page_url : String) (initial : FetchResult)
    (baseHref : Option String) (extraction : ExtractionResult)
    (required_keys : List String) (seen : List JVal) :
    (fetch_and_process_page page_url initial baseHref extraction
      required_keys seen).seen =
      seen ++ (fetch_and_process_page page_url initial baseHref extraction
        required_keys seen).venues.map nameOf ∧
    ((fetch_and_process_page page_url initial baseHref extraction
      required_keys seen).venues.map nameOf).Nodup ∧
    (∀ n ∈ (fetch_and_process_page page_url initial baseHref extraction
      required_keys seen).venues.map nameOf, n ∉ seen) ∧
    (∀ v ∈ (fetch_and_process_page page_url initial baseHref extraction
      required_keys seen).venues, ∀ k ∈ required_keys, ∃ x,
        jlookup k v = some x ∧ blankVal x = false) := by
  by_cases hs : initial.success
  · obtain ⟨es, ee, em⟩ := extraction
    match es, ee with
    | false, ee => rw [fapp_eq_noext hs ee em]; simp
    | true, none => rw [fapp_eq_nocontent hs em]; simp
    | true, some l =>
      by_cases hl : l = []
      · subst hl
        rw [fapp_eq_empty hs em]; simp
      · rw [fapp_eq_fold hs hl em]
        obtain ⟨new, h1, h2, h3, h4, h5⟩ :=
          foldl_processVenue_spec (resolveBaseUrl baseHref page_url)
            required_keys l { venues := [], seen := seen, log := [] }
        simp only [List.nil_append] at h1
        simp only at h2 h4
        refine ⟨?_, ?_, ?_, ?_⟩ <;> simp only [h1, h2]
        · exact h3
        · exact h4
        · exact h5
  · rw [fapp_eq_fail (Bool.eq_false_iff.mpr hs)]; simp

/-- Run-level dedup facts, by induction over the page sequence. -/
theorem runPages_spec (required_keys : List String) (pages : List PageInput) :
    ∀ seen : List JVal,
      (runPages required_keys pages seen).2 =
        seen ++ (runPages required_keys pages seen).1.map nameOf ∧
      ((runPages required_keys pages seen).1.map nameOf).Nodup ∧
      (∀ n ∈ (runPages required_keys pages seen).1.map nameOf, n ∉ seen) ∧
      (∀ v ∈ (runPages required_keys pages seen).1, ∀ k ∈ required_keys,
        ∃ x, jlookup k v = some x ∧ blankVal x = false) := by
  induction pages with
  | nil => intro seen; simp [runPages]
  | cons p pages ih =>
    intro seen
    obtain ⟨hp1, hp2, hp3, hp4⟩ := page_names_spec p.page_url p.initial
      p.baseHref p.extraction required_keys seen
    obtain ⟨hr1, hr2, hr3, hr4⟩ := ih (fetch_and_process_page p.page_url
      p.initial p.baseHref p.extraction required_keys seen).seen
    simp only [runPages]
    refine ⟨?_, ?_, ?_, ?_⟩
    · rw [hr1, hp1]
      simp [List.append_assoc]
    · rw [List.map_append, List.nodup_append]
      refine ⟨hp2, hr2, fun n hn hn' => ?_⟩
      exact hr3 _ hn' (by rw [hp1]; exact List.mem_append_right _ hn)
    · intro n hn
      rw [List.map_append, List.mem_append] at hn
      rcases hn with hn | hn
      · exact hp3 _ hn
      · have := hr3 _ hn
        rw [hp1] at this
        simp only [List.mem_append, not_or] at this
        exact this.1
    · intro v hv
      rw [List.mem_append] at hv
      rcases hv with hv | hv
      · exact hp4 _ hv
      · exact hr4 _ hv

/-- C2: across a whole run — a sequence of page invocations threading one
seen-name set, started empty — no two accepted records share the same
`document_name`: the duplicate check is exact equality on the name
value (no case or whitespace folding), the first occurrence registers
the name, and any later item with an equal name (same page or a later
page) is dropped, so the accepted names are pairwise distinct.  With
`document_name` among the required keys, every accepted record carries
a present, non-blank name. -/
theorem run_dedup_invariant (pages : List PageInput)
    (required_keys : List String)
    (hreq : "document_name" ∈ required_keys) :
    ((runPages required_keys pages []).1.map nameOf).Nodup ∧
    ∀ v ∈ (runPages required_keys pages []).1, ∃ x,
      jlookup "document_name" v = some x ∧ blankVal x = false :=
  ⟨(runPages_spec required_keys pages []).2.1,
   fun v hv => (runPages_spec required_keys pages []).2.2.2 v hv _ hreq⟩

/-- A concrete two-page run with a same-page duplicate ("Cert A" twice on
page 1) and a cross-page duplicate ("Cert A" again on page 2). -/
def samplePages : List PageInput :=
  [{ page_url := "https://example.com/page1",
     initial := ⟨true, "<div>r</div>", ""⟩, baseHref := none,
     extraction := ⟨true, some
       [[("document_name", JVal.str "Cert A"),
         ("document_url", JVal.str "/a.pdf")],
        [("document_name", JVal.str "Cert A"),
         ("document_url", JVal.str "/a2.pdf")],
        [("document_name", JVal.str "Cert B"),
         ("document_url", JVal.str "/b.pdf")]], ""⟩ },
   { page_url := "https://example.com/page2",
     initial := ⟨true, "<div>r</div>", ""⟩, baseHref := none,
     extraction := ⟨true, some
       [[("document_name", JVal.str "Cert A"),
         ("document_url", JVal.str "/a3.pdf")],
        [("document_name", JVal.str "Cert C"),
         ("document_url", JVal.str "/c.pdf")]], ""⟩ }]

/-- Witness for C2 on the concrete two-page run; the accepted names are
exactly Cert A, Cert B, Cert C (the duplicates were dropped). -/
theorem run_dedup_invariant_witness :
    ("document_name" ∈ ["document_name", "document_url"]) ∧
    (runPages ["document_name", "document_url"] samplePages []).1.map nameOf =
      [JVal.str "Cert A", JVal.str "Cert B", JVal.str "Cert C"] ∧
    (((runPages ["document_name", "document_url"] samplePages []).1.map
        nameOf).Nodup ∧
      ∀ v ∈ (runPages ["document_name", "document_url"] samplePages []).1,
        ∃ x, jlookup "document_name" v = some x ∧ blankVal x = false) :=
  ⟨by decide, by decide,
    run_dedup_invariant samplePages ["document_name", "document_url"]
      (by decide)⟩

/-- C9: the completeness check accepts an item exactly when every
required field exists with a non-empty, non-whitespace-only value; an
`error` field equal to `false` is stripped from the item before the
check while any other `error` value leaves the item untouched; and an
item failing the check is dropped silently — the loop state is
unchanged and the remaining items of the page are processed exactly as
without it. -/
theorem completeness_check_policy (venue : Item)
    (required_keys : List String) :
    ((is_complete_venue venue required_keys).1 = true ↔
      ∀ k ∈ required_keys, ∃ x,
        jlookup k (is_complete_venue venue required_keys).2 = some x ∧
        blankVal x = false) ∧
    (jlookup "error" venue = some (JVal.bool false) →
      (is_complete_venue venue required_keys).2 =
        removeKey "error" venue) ∧
    (jlookup "error" venue ≠ some (JVal.bool false) →
      (is_complete_venue venue required_keys).2 = venue) ∧
    (∀ (base : String) (st : PipeState) (rest : List Item),
      (is_complete_venue (normalizeUrlField base venue)
        required_keys).1 = false →
      processVenue base required_keys st venue = st ∧
      (venue :: rest).foldl (processVenue base required_keys) st =
        rest.foldl (processVenue base required_keys) st) := by
  refine ⟨complete_iff venue required_keys, ?_, ?_, ?_⟩
  · intro h; simp [is_complete_venue, h]
  · intro h; simp [is_complete_venue, if_neg h]
  · intro base st rest h
    exact ⟨processVenue_incomplete h,
      by rw [List.foldl_cons, processVenue_incomplete h]⟩

/-- Witness for C9: the `error = false` field of a concrete item is
stripped, and a concrete item lacking `document_url` is skipped with
the loop state unchanged. -/
theorem completeness_check_policy_witness :
    (is_complete_venue
        [("document_name", JVal.str "Cert A"),
         ("document_url", JVal.str "https://example.com/a.pdf"),
         ("error", JVal.bool false)] ["document_name", "document_url"]).2 =
      [("document_name", JVal.str "Cert A"),
       ("document_url", JVal.str "https://example.com/a.pdf")] ∧
    processVenue "https://example.com" ["document_name", "document_url"]
      { venues := [], seen := [], log := [] }
      [("document_name", JVal.str "Cert A")] =
      { venues := [], seen := [], log := [] } :=
  ⟨(completeness_check_policy _ ["document_name", "document_url"]).2.1
      (by decide),
   ((completeness_check_policy _ ["document_name", "document_url"]).2.2.2
      "https://example.com" { venues := [], seen := [], log := [] } []
      (by decide)).1⟩

/-- C5 counterexample: `https:docs/cert.pdf` carries a scheme (the
scheme-detection step of `urlsplit` extracts `https`), yet joining it
against the base `https://example.com` does not return it unchanged —
sharing the base's scheme while lacking an authority, it is resolved
like a relative reference. -/
theorem urljoin_changes_schemed_url :
    (splitScheme (removeUnsafe (lstripC0 "https:docs/cert.pdf".toList))).1 =
      some "https".toList ∧
    urljoin "https://example.com" "https:docs/cert.pdf" =
      "https://example.com/docs/cert.pdf" ∧
    urljoin "https://example.com" "https:docs/cert.pdf" ≠
      "https:docs/cert.pdf" := by
  refine ⟨rfl, rfl, ?_⟩
  decide

/-- C5 (amended): normalization returns a non-empty URL unchanged
whenever its parsed scheme differs from the base URL's parsed scheme or
is not a relative-use scheme, provided both parses are `parseSafe`
(bracket-free, ASCII netlocs — the inputs on which CPython's `urlsplit`
does not raise and the embedding coincides with it); on that class a
second normalization is therefore also the identity.  (It is not the
identity on every scheme-carrying URL — see the counterexample.) -/
theorem urljoin_id_on_foreign_scheme (base url : String) (hu : url ≠ "")
    (hsb : parseSafe (urlparse base "") = true)
    (hsu : parseSafe (urlparse url (urlparse base "").scheme) = true)
    (h : (urlparse url (urlparse base "").scheme).scheme ≠
          (urlparse base "").scheme ∨
        (urlparse url (urlparse base "").scheme).scheme ∉ usesRelative) :
    urljoin base url = url := by
  by_cases hb : base = ""
  · simp [urljoin, hb]
  · unfold urljoin
    rw [if_neg hb, if_neg hu]
    exact if_pos h

/-- Witness for the amended C5 at a concrete absolute URL whose scheme
differs from the base's, with both parses bracket-free and ASCII. -/
theorem urljoin_id_on_foreign_scheme_witness :
    ("http://other.com/cert.pdf" ≠ "") ∧
    parseSafe (urlparse "https://example.com" "") = true ∧
    parseSafe (urlparse "http://other.com/cert.pdf"
      (urlparse "https://example.com" "").scheme) = true ∧
    ((urlparse "http://other.com/cert.pdf"
        (urlparse "https://example.com" "").scheme).scheme ≠
      (urlparse "https://example.com" "").scheme) ∧
    urljoin "https://example.com" "http://other.com/cert.pdf" =
      "http://other.com/cert.pdf" :=
  ⟨by decide, by decide, by decide, by decide,
    urljoin_id_on_foreign_scheme "https://example.com"
      "http://other.com/cert.pdf" (by decide) (by decide) (by decide)
      (Or.inl (by decide))⟩

/-- C8 counterexample: a base declaration whose `href` value is the
empty string is not used verbatim — Python truthiness sends it to the
scheme-host fallback. -/
theorem empty_href_not_verbatim :
    resolveBaseUrl (some "") "https://example.com/page?x=1" =
      "https://example.com" ∧
    resolveBaseUrl (some "") "https://example.com/page?x=1" ≠ "" :=
  ⟨rfl, by decide⟩

/-- C8 (amended): base-URL resolution is total and follows the policy
with the truthiness refinement — a base declaration with a NON-EMPTY
href value is used verbatim; otherwise (no declaration, no href
attribute, or an empty href) the base URL is `scheme://host` built by
`urlparse` from the request URL. -/
theorem base_url_resolution_policy (baseHref : Option String)
    (page_url : String) :
    (∀ h, baseHref = some h → h ≠ "" →
      resolveBaseUrl baseHref page_url = h) ∧
    (baseHref = none ∨ baseHref = some "" →
      resolveBaseUrl baseHref page_url =
        (urlparse page_url "").scheme ++ "://" ++
          (urlparse page_url "").netloc) := by
  constructor
  · rintro h rfl hne
    simp [resolveBaseUrl, hne]
  · rintro (rfl | rfl) <;> simp [resolveBaseUrl, fallbackBase]

/-- Witness for the amended C8: a non-empty href is returned verbatim. -/
theorem base_url_resolution_policy_witness :
    ("https://cdn.example.org/app/" ≠ "") ∧
    resolveBaseUrl (some "https://cdn.example.org/app/")
        "https://example.com/p" = "https://cdn.example.org/app/" :=
  ⟨by decide,
    (base_url_resolution_policy (some "https://cdn.example.org/app/")
      "https://example.com/p").1 _ rfl (by decide)⟩

end Crawler
